import Mathlib

/-!
Shallow embedding of the vdsm multi-protocol acceptor
(src/vdsm/protocoldetector.py) and of the fair readers-writer lock that
src/tests/rwlock_test.py exercises, together with theorems checking the
natural-language specification against the code.
-/

namespace Vdsm

/-! Protocol detector plug-in contract: each registered detector carries a
name, the number of initial bytes it needs (REQUIRED_SIZE), and a pure
match function over the peeked prefix (detect). Bytes are modelled as
natural numbers. -/

structure Detector where
  NAME : String
  REQUIRED_SIZE : Nat
  detect : List Nat → Bool

/-- Outcome of the recv syscall in _ProtocolDetector.handle_read, apart
from the data itself: success, EWOULDBLOCK (socket.error with EWOULDBLOCK),
or any other socket error. -/
inductive RecvEvent
  | ok
  | ewouldblock
  | err
deriving DecidableEq, Repr

/-- Connection byte stream as seen by the kernel: the bytes sent by the
client from byte 0, and the position of the first byte not yet consumed
by a read. A peek does not advance the position. -/
structure SockState where
  stream : List Nat
  pos : Nat
deriving DecidableEq, Repr

/-- Model of sock.recv(n, flags): returns at most n bytes starting at the
current position; with the peek flag (MSG_PEEK) the position does not
advance, without it the returned bytes are consumed. -/
def sockRecv (sock : SockState) (n : Nat) (peek : Bool) : List Nat × SockState :=
  let data := (sock.stream.drop sock.pos).take n
  (data, if peek then sock else { sock with pos := sock.pos + data.length })

/-- Observable effects of one _ProtocolDetector.handle_read call on the
dispatcher: whether dispatcher.close() was called, whether
dispatcher.handle_error() was called, which detector's handle_dispatcher
was invoked (its index in registration order), and whether the
"Unrecognized protocol" warning was logged. -/
structure ReadOutcome where
  closed : Bool
  errored : Bool
  handoff : Option Nat
  warned : Bool
deriving DecidableEq, Repr

/-- The for-loop of _ProtocolDetector.handle_read (protocoldetector.py
lines 110-120): index of the first detector in registration order whose
detect returns true on the peeked data, none when the loop falls through
to its else clause. -/
def firstMatch (detectors : List Detector) (data : List Nat) : Option Nat :=
  match detectors with
  | [] => none
  | d :: ds =>
    if d.detect data then some 0
    else (firstMatch ds data).map (fun i => i + 1)

/-- _ProtocolDetector.handle_read (protocoldetector.py lines 93-123),
faithful to the source control flow: peek with MSG_PEEK; on EWOULDBLOCK
return, on other socket errors call handle_error and return; if fewer
than required_size bytes were peeked, return; if monotonic_time() is past
give_up_at, call dispatcher.close() (the source does not return here);
then run the detector loop: the first match gets handle_dispatcher,
otherwise log a warning and close. -/
def handle_read (detectors : List Detector) (required_size : Nat)
    (give_up_at now : Nat) (ev : RecvEvent) (sock : SockState) :
    ReadOutcome × SockState :=
  match ev with
  | RecvEvent.ewouldblock => (⟨false, false, none, false⟩, sock)
  | RecvEvent.err => (⟨false, true, none, false⟩, sock)
  | RecvEvent.ok =>
    let r := sockRecv sock required_size true
    let data := r.1
    let sock1 := r.2
    if data.length < required_size then
      (⟨false, false, none, false⟩, sock1)
    else
      let timedOut : Bool := decide (give_up_at < now)
      match firstMatch detectors data with
      | some i => (⟨timedOut, false, some i, false⟩, sock1)
      | none => (⟨true, false, none, true⟩, sock1)

/-- _ProtocolDetector.next_check_interval (protocoldetector.py lines
90-91): min(give_up_at - monotonic_time(), 0), exactly as written in the
source. Times are integers so the difference may be negative. -/
def next_check_interval (give_up_at now : Int) : Int :=
  min (give_up_at - now) 0

/-- The Python expression max(h.REQUIRED_SIZE for h in detectors) from
_ProtocolDetector.__init__: none models the ValueError that max raises on
an empty sequence. -/
def maxRequiredSize : List Detector → Option Nat
  | [] => none
  | d :: ds => some (ds.foldl (fun m h => max m h.REQUIRED_SIZE) d.REQUIRED_SIZE)

/-- State of a constructed _ProtocolDetector: the detector list it was
given, the required peek size computed once in __init__, and the give-up
deadline, also computed once in __init__ as monotonic_time() + timeout. -/
structure DetectorImpl where
  detectors : List Detector
  required_size : Nat
  give_up_at : Nat

/-- _ProtocolDetector.__init__ (protocoldetector.py lines 81-85) run at
monotonic time now: fails (none) when the detector list is empty, because
max over an empty sequence raises ValueError; otherwise stores the list,
the maximum REQUIRED_SIZE, and the deadline now + timeout. -/
def ProtocolDetector.init (detectors : List Detector) (timeout : Nat)
    (now : Nat) : Option DetectorImpl :=
  (maxRequiredSize detectors).map
    (fun rs => { detectors := detectors, required_size := rs, give_up_at := now + timeout })

/-- MultiProtocolAcceptor._register_protocol_detector (protocoldetector.py
lines 198-206) as run at monotonic time switchTime: it constructs
_ProtocolDetector(self._handlers, self.TIMEOUT) at that moment and
installs it via switch_implementation, so the detector's give-up deadline
is anchored at switchTime. -/
def register_protocol_detector (handlers : List Detector) (TIMEOUT : Nat)
    (switchTime : Nat) : Option DetectorImpl :=
  ProtocolDetector.init handlers TIMEOUT switchTime

/-! Readers-writer lock. The RWLock implementation (storage.misc.RWLock)
is not part of the sources; only its test suite src/tests/rwlock_test.py
is. The state machine below is therefore modelled from the spec (sections
3 and 4.1): holders map caller identities to positive recursion counts,
the wait queue preserves arrival order, and granting is fair FIFO. -/

/-- A lock may be requested or held in shared or exclusive mode. -/
inductive LockMode
  | shared
  | exclusive
deriving DecidableEq, Repr

/-- One holder entry: caller identity, the mode held, and the positive
recursion count. An identity preparing demotion has two entries, one
exclusive and one shared. -/
structure Holder where
  ident : Nat
  mode : LockMode
  count : Nat
deriving DecidableEq, Repr

/-- Modelled from the spec: RWLock state, holders plus the arrival-ordered
wait queue of (identity, requested mode) pairs. -/
structure RWLock where
  holders : List Holder
  waiters : List (Nat × LockMode)
deriving DecidableEq, Repr

/-- Programmer errors the RWLock raises: promotion from shared to
exclusive by the same identity, and release by an identity that holds
nothing. -/
inductive RWError
  | promotionForbidden
  | releaseByNonHolder
deriving DecidableEq, Repr

/-- Does identity t hold the lock in mode m. -/
def isHolder (t : Nat) (m : LockMode) (s : RWLock) : Bool :=
  s.holders.any (fun h => h.ident == t && h.mode == m)

/-- Is some identity an exclusive holder. -/
def anyExclusiveHolder (s : RWLock) : Bool :=
  s.holders.any (fun h => h.mode == LockMode.exclusive)

/-- Is some exclusive request waiting in the queue. -/
def hasExclusiveWaiter (s : RWLock) : Bool :=
  s.waiters.any (fun w => w.2 == LockMode.exclusive)

/-- Increment the recursion count of the (t, m) holder entry. -/
def bumpEntry : List Holder → Nat → LockMode → List Holder
  | [], _, _ => []
  | h :: hs, t, m =>
    if h.ident == t && h.mode == m then { h with count := h.count + 1 } :: hs
    else h :: bumpEntry hs t m

/-- Decrement the recursion count of the (t, m) holder entry, dropping the
entry when the count reaches zero; none when t holds no such entry. -/
def decEntry : List Holder → Nat → LockMode → Option (List Holder)
  | [], _, _ => none
  | h :: hs, t, m =>
    if h.ident == t && h.mode == m then
      if h.count ≤ 1 then some hs else some ({ h with count := h.count - 1 } :: hs)
    else (decEntry hs t m).map (fun tl => h :: tl)

/-- Modelled from the spec: acquire_shared. A shared holder re-acquires by
bumping its count; an exclusive holder gains a distinct shared entry
(demotion preparation); otherwise the request is granted immediately only
when no exclusive holder exists and no exclusive waiter is ahead in the
queue (fair FIFO rule 3), else it enqueues at the tail. -/
def acquireShared (t : Nat) (s : RWLock) : RWLock :=
  if isHolder t LockMode.shared s then
    { s with holders := bumpEntry s.holders t LockMode.shared }
  else if isHolder t LockMode.exclusive s then
    { s with holders := ⟨t, LockMode.shared, 1⟩ :: s.holders }
  else if anyExclusiveHolder s || hasExclusiveWaiter s then
    { s with waiters := s.waiters ++ [(t, LockMode.shared)] }
  else
    { s with holders := s.holders ++ [⟨t, LockMode.shared, 1⟩] }

/-- Modelled from the spec: acquire_exclusive. An exclusive holder
re-acquires by bumping its count; a shared holder requesting exclusive is
a programmer error (promotion forbidden) and leaves the state untouched;
otherwise the request is granted only when the lock is idle and the queue
empty, else it enqueues at the tail. -/
def acquireExclusive (t : Nat) (s : RWLock) : Option RWError × RWLock :=
  if isHolder t LockMode.exclusive s then
    (none, { s with holders := bumpEntry s.holders t LockMode.exclusive })
  else if isHolder t LockMode.shared s then
    (some RWError.promotionForbidden, s)
  else if s.holders.isEmpty && s.waiters.isEmpty then
    (none, { s with holders := [⟨t, LockMode.exclusive, 1⟩] })
  else
    (none, { s with waiters := s.waiters ++ [(t, LockMode.exclusive)] })

/-- Grant the contiguous run of shared waiters at the head of the queue
(spec granting rule 2). -/
def grantSharedRun (s : RWLock) : RWLock :=
  { holders := s.holders ++
      (s.waiters.takeWhile (fun w => w.2 == LockMode.shared)).map
        (fun w => ⟨w.1, LockMode.shared, 1⟩),
    waiters := s.waiters.dropWhile (fun w => w.2 == LockMode.shared) }

/-- Modelled from the spec: the granting rule run after a release. If an
exclusive holder remains nothing is granted; if the lock is idle and the
head waiter is exclusive it alone is granted; otherwise the contiguous
shared waiters at the head are granted. -/
def grantWaiters (s : RWLock) : RWLock :=
  if anyExclusiveHolder s then s
  else if s.holders.isEmpty then
    match s.waiters with
    | (u, LockMode.exclusive) :: rest =>
      { holders := [⟨u, LockMode.exclusive, 1⟩], waiters := rest }
    | _ => grantSharedRun s
  else grantSharedRun s

/-- Modelled from the spec: release. The caller's exclusive entry is
decremented first if present (demotion), else its shared entry; release
by a non-holder is a programmer error leaving the state untouched; after
a successful decrement the granting rule wakes waiters. -/
def release (t : Nat) (s : RWLock) : Option RWError × RWLock :=
  match decEntry s.holders t LockMode.exclusive with
  | some hs => (none, grantWaiters { s with holders := hs })
  | none =>
    match decEntry s.holders t LockMode.shared with
    | some hs => (none, grantWaiters { s with holders := hs })
    | none => (some RWError.releaseByNonHolder, s)

/-! Concrete fixtures used to evaluate the definitions on small inputs. -/

/-- A detector that needs 4 bytes and matches every prefix. -/
def dAlways : Detector :=
  { NAME := "always", REQUIRED_SIZE := 4, detect := fun _ => true }

/-- A detector that needs 4 bytes and matches no prefix. -/
def dNever : Detector :=
  { NAME := "never", REQUIRED_SIZE := 4, detect := fun _ => false }

/-- A lock held shared by identity 1, with an empty wait queue. -/
def sharedLock : RWLock :=
  { holders := [⟨1, LockMode.shared, 1⟩], waiters := [] }

/-- A lock held shared by identity 1 while identity 2 waits for
exclusive: the configuration of the FIFO test after the writer blocks. -/
def fifoLock : RWLock :=
  { holders := [⟨1, LockMode.shared, 1⟩], waiters := [(2, LockMode.exclusive)] }

/-! Theorems. -/

/-- The detector loop finds no index exactly when every registered
detector rejects the peeked data. -/
theorem firstMatch_eq_none_iff (ds : List Detector) (data : List Nat) :
    firstMatch ds data = none ↔ ∀ d ∈ ds, d.detect data = false := by
  induction ds with
  | nil => simp [firstMatch]
  | cons d ds ih =>
    by_cases hd : d.detect data
    · simp [firstMatch, hd]
    · simp [firstMatch, hd, ih]

/-- When the detector loop returns index i, detector i matches the data
and every earlier detector rejects it. -/
theorem firstMatch_isFirst (ds : List Detector) (data : List Nat) (i : Nat)
    (h : firstMatch ds data = some i) :
    ∃ d, ds[i]? = some d ∧ d.detect data = true ∧
      ∀ j, j < i → ∀ e, ds[j]? = some e → e.detect data = false := by
  induction ds generalizing i with
  | nil => simp [firstMatch] at h
  | cons d ds ih =>
    by_cases hd : d.detect data
    · simp [firstMatch, hd] at h
      subst h
      exact ⟨d, by simp, hd, by omega⟩
    · simp [firstMatch, hd] at h
      obtain ⟨j, h1, h2⟩ := h
      obtain ⟨e, he1, he2, he3⟩ := ih j h1
      subst h2
      refine ⟨e, by simpa using he1, he2, ?_⟩
      intro k hk e2 hk2
      cases k with
      | zero =>
        simp at hk2
        subst hk2
        simpa using hd
      | succ k =>
        exact he3 k (by omega) e2 (by simpa using hk2)

/-- C1: the claim says an accepted connection sees exactly one terminal
outcome, handoff or close, never both, and that a handle_read that closes
on the passed deadline invokes no detector. The code violates this:
dispatcher.close() on timeout (protocoldetector.py line 108) is not
followed by a return, so the detector loop still runs and a matching
detector's handle_dispatcher is invoked on the closed dispatcher, as this
concrete evaluation shows. -/
theorem handle_read_timeout_still_hands_off :
    (handle_read [dAlways] 4 10 20 RecvEvent.ok ⟨[1, 2, 3, 4], 0⟩).1 =
      ⟨true, false, some 0, false⟩ := by
  rfl

/-- C3: the claim says that past the deadline with fewer than
required_peek_size bytes available (even zero) the connection is closed.
The code violates this: the short-data check at protocoldetector.py line
103 returns before the deadline is ever consulted, so handle_read simply
returns awaiting more data, closing nothing, as these evaluations at
monotonic time 20 with deadline 10 show. -/
theorem handle_read_timeout_short_data_returns :
    (handle_read [dAlways] 4 10 20 RecvEvent.ok ⟨[], 0⟩).1 =
      ⟨false, false, none, false⟩ ∧
    (handle_read [dAlways] 4 10 20 RecvEvent.ok ⟨[1, 2], 0⟩).1 =
      ⟨false, false, none, false⟩ ∧
    (handle_read [dAlways] 4 10 20 RecvEvent.ewouldblock ⟨[], 0⟩).1 =
      ⟨false, false, none, false⟩ := by
  exact ⟨rfl, rfl, rfl⟩

/-- C4: the claim (and the spec's stated intent) is that
next_check_interval returns the remaining time max(deadline - now, 0).
The code computes min(deadline - now, 0): with the deadline 7 units in the
future it returns 0 instead of 7, as this evaluation shows. -/
theorem next_check_interval_is_min_not_max :
    next_check_interval 10 3 = 0 ∧ next_check_interval 10 3 ≠ 10 - 3 := by
  exact ⟨rfl, by decide⟩

/-- C5: on a full-size peek that at least one registered detector
matches, handle_read hands off to exactly the first matching detector in
registration order: its index i satisfies detect = true while every
earlier index rejects the data. -/
theorem detector_first_match_wins (ds : List Detector) (rs g now : Nat)
    (sock : SockState)
    (hlen : ¬ ((sock.stream.drop sock.pos).take rs).length < rs)
    (hex : ∃ d ∈ ds, d.detect ((sock.stream.drop sock.pos).take rs) = true) :
    ∃ i, (handle_read ds rs g now RecvEvent.ok sock).1.handoff = some i ∧
      (∃ d, ds[i]? = some d ∧
        d.detect ((sock.stream.drop sock.pos).take rs) = true) ∧
      ∀ j, j < i → ∀ e, ds[j]? = some e →
        e.detect ((sock.stream.drop sock.pos).take rs) = false := by
  have hnone : firstMatch ds ((sock.stream.drop sock.pos).take rs) ≠ none := by
    intro hno
    obtain ⟨d, hmem, hdet⟩ := hex
    rw [(firstMatch_eq_none_iff ds _).mp hno d hmem] at hdet
    exact Bool.false_ne_true hdet
  obtain ⟨i, hi⟩ := Option.ne_none_iff_exists'.mp hnone
  obtain ⟨d, h1, h2, h3⟩ := firstMatch_isFirst ds _ i hi
  refine ⟨i, ?_, ⟨d, h1, h2⟩, h3⟩
  have hlen2 : ¬ sock.stream.length - sock.pos < rs := by simpa using hlen
  simp [handle_read, sockRecv, hi, hlen2]

/-- C7: on a full-size peek that no registered detector matches,
handle_read logs the unrecognized-protocol warning and closes the
dispatcher, invoking no handoff. -/
theorem detector_no_match_warns_closes (ds : List Detector) (rs g now : Nat)
    (sock : SockState)
    (hlen : ¬ ((sock.stream.drop sock.pos).take rs).length < rs)
    (hnone : ∀ d ∈ ds, d.detect ((sock.stream.drop sock.pos).take rs) = false) :
    (handle_read ds rs g now RecvEvent.ok sock).1 = ⟨true, false, none, true⟩ := by
  have hfm := (firstMatch_eq_none_iff ds _).mpr hnone
  have hlen2 : ¬ sock.stream.length - sock.pos < rs := by simpa using hlen
  simp [handle_read, sockRecv, hfm, hlen2]

/-- C6: handle_read peeks with MSG_PEEK and never consumes bytes: the
socket state after any handle_read call is exactly the state before, and
the peeked data is the prefix of the stream at the current position, so
after handoff the winning handler reads the stream starting at byte 0 and
observes the very bytes that were matched. -/
theorem detector_peek_consumes_nothing (ds : List Detector) (rs g now : Nat)
    (ev : RecvEvent) (sock : SockState) :
    (handle_read ds rs g now ev sock).2 = sock ∧
    (sockRecv sock rs true).1 = (sock.stream.drop sock.pos).take rs := by
  refine ⟨?_, rfl⟩
  cases ev with
  | ewouldblock => rfl
  | err => rfl
  | ok =>
    simp only [handle_read, sockRecv]
    split
    · rfl
    · split <;> rfl

/-- C5 witness: a single always-matching detector on a 4-byte stream is
handed off at index 0. -/
theorem detector_first_match_wins_witness :
    ∃ i, (handle_read [dAlways] 4 10 0 RecvEvent.ok ⟨[9, 9, 9, 9], 0⟩).1.handoff =
        some i ∧
      (∃ d, [dAlways][i]? = some d ∧
        d.detect ((([9, 9, 9, 9] : List Nat).drop 0).take 4) = true) ∧
      ∀ j, j < i → ∀ e, [dAlways][j]? = some e →
        e.detect ((([9, 9, 9, 9] : List Nat).drop 0).take 4) = false :=
  detector_first_match_wins [dAlways] 4 10 0 ⟨[9, 9, 9, 9], 0⟩ (by decide)
    ⟨dAlways, by simp, rfl⟩

/-- C7 witness: a single never-matching detector on a full 4-byte peek
warns and closes. -/
theorem detector_no_match_warns_closes_witness :
    (handle_read [dNever] 4 10 0 RecvEvent.ok ⟨[9, 9, 9, 9], 0⟩).1 =
      ⟨true, false, none, true⟩ :=
  detector_no_match_warns_closes [dNever] 4 10 0 ⟨[9, 9, 9, 9], 0⟩ (by decide)
    (by intro d hd; simp at hd; subst hd; rfl)

/-- C2 counterexample: with handshake start at monotonic time 0, timeout
10 and the switch to the detector at time 5, the installed detector's
give-up deadline is 5 + 10 = 15, not the handshake-anchored 0 + 10 the
claim requires: _ProtocolDetector.__init__ computes monotonic_time() +
timeout at the moment _register_protocol_detector runs. -/
theorem register_detector_resets_deadline_cex :
    (register_protocol_detector [dAlways] 10 5).map DetectorImpl.give_up_at =
      some (5 + 10) ∧ 5 + 10 ≠ 0 + 10 := by
  exact ⟨rfl, by decide⟩

/-- C2 amended: the deadline IS reset at the switch. For any non-empty
handler list, _register_protocol_detector run at monotonic time switchTime
installs a detector whose give-up deadline is switchTime + TIMEOUT, so the
detection phase receives a fresh full timeout budget anchored at the
switch, not at handshake start. -/
theorem register_detector_resets_deadline (handlers : List Detector)
    (TIMEOUT switchTime : Nat) (h : handlers ≠ []) :
    ∃ impl, register_protocol_detector handlers TIMEOUT switchTime = some impl ∧
      impl.give_up_at = switchTime + TIMEOUT := by
  cases handlers with
  | nil => exact absurd rfl h
  | cons d ds => exact ⟨_, rfl, rfl⟩

/-- C2 witness: one registered detector, timeout 10, switch at time 5
gives deadline 15. -/
theorem register_detector_resets_deadline_witness :
    ∃ impl, register_protocol_detector [dAlways] 10 5 = some impl ∧
      impl.give_up_at = 5 + 10 :=
  register_detector_resets_deadline [dAlways] 10 5 (by simp)

/-- C10: constructing the per-connection _ProtocolDetector with an empty
detector list fails (max over an empty sequence raises ValueError), so a
registered detector is a precondition for handling an accepted
connection; for a non-empty list the construction succeeds and fixes
required_size as the maximum REQUIRED_SIZE over exactly the detectors
present at creation. -/
theorem protocol_detector_init_requires_detector (timeout now : Nat) :
    ProtocolDetector.init [] timeout now = none ∧
    ∀ ds : List Detector, ds ≠ [] →
      ∃ impl, ProtocolDetector.init ds timeout now = some impl ∧
        some impl.required_size = maxRequiredSize ds ∧
        impl.detectors = ds := by
  refine ⟨rfl, ?_⟩
  intro ds h
  cases ds with
  | nil => exact absurd rfl h
  | cons d tl => exact ⟨_, rfl, rfl, rfl⟩

/-- C10 witness: with timeout 2 at time 3, the empty list fails and the
singleton list succeeds with required_size 4. -/
theorem protocol_detector_init_requires_detector_witness :
    ProtocolDetector.init [] 2 3 = none ∧
    ∃ impl, ProtocolDetector.init [dAlways] 2 3 = some impl ∧
      some impl.required_size = maxRequiredSize [dAlways] ∧
      impl.detectors = [dAlways] :=
  ⟨(protocol_detector_init_requires_detector 2 3).1,
   (protocol_detector_init_requires_detector 2 3).2 [dAlways] (by simp)⟩

/-- C8: a caller holding the lock in shared mode that requests exclusive
gets the promotion-forbidden programmer error, and the lock state,
including the caller's shared holding, is returned untouched. -/
theorem rwlock_promotion_forbidden (s : RWLock) (t : Nat)
    (hs : isHolder t LockMode.shared s = true)
    (he : isHolder t LockMode.exclusive s = false) :
    acquireExclusive t s = (some RWError.promotionForbidden, s) := by
  simp [acquireExclusive, hs, he]

/-- C8 witness: identity 1 holding shared on the concrete lock is refused
exclusive and the state is unchanged. -/
theorem rwlock_promotion_forbidden_witness :
    acquireExclusive 1 sharedLock = (some RWError.promotionForbidden, sharedLock) :=
  rwlock_promotion_forbidden sharedLock 1 (by decide) (by decide)

/-- C9: FIFO fairness. With an exclusive waiter tA in the queue, a new
shared request by tB enqueues at the tail and does not acquire; when the
lock later becomes idle the granting rule grants the head exclusive
waiter tA alone, leaving everything behind it (including tB) waiting; in
particular releasing the last shared holder in that configuration grants
tA and only tA. -/
theorem rwlock_fifo (s : RWLock) (tA tB : Nat)
    (hA : (tA, LockMode.exclusive) ∈ s.waiters)
    (hB1 : isHolder tB LockMode.shared s = false)
    (hB2 : isHolder tB LockMode.exclusive s = false) :
    (acquireShared tB s).waiters = s.waiters ++ [(tB, LockMode.shared)] ∧
    isHolder tB LockMode.shared (acquireShared tB s) = false ∧
    (∀ rest : List (Nat × LockMode),
      grantWaiters { holders := [], waiters := (tA, LockMode.exclusive) :: rest } =
        { holders := [⟨tA, LockMode.exclusive, 1⟩], waiters := rest }) ∧
    (∀ u : Nat, ∀ rest : List (Nat × LockMode),
      release u { holders := [⟨u, LockMode.shared, 1⟩],
                  waiters := (tA, LockMode.exclusive) :: rest } =
        (none, { holders := [⟨tA, LockMode.exclusive, 1⟩], waiters := rest })) := by
  have hw : hasExclusiveWaiter s = true := by
    apply List.any_eq_true.mpr
    exact ⟨(tA, LockMode.exclusive), hA, rfl⟩
  have hacq : acquireShared tB s = { s with waiters := s.waiters ++ [(tB, LockMode.shared)] } := by
    simp [acquireShared, hB1, hB2, hw]
  refine ⟨by rw [hacq], ?_, ?_, ?_⟩
  · rw [hacq]
    simpa [isHolder] using hB1
  · intro rest
    rfl
  · intro u rest
    simp [release, decEntry, grantWaiters, grantSharedRun, anyExclusiveHolder]

/-- C9 witness: on the concrete lock held shared by 1 with writer 2
waiting, a shared request by 3 enqueues behind the writer and does not
acquire. -/
theorem rwlock_fifo_witness :
    (acquireShared 3 fifoLock).waiters = fifoLock.waiters ++ [(3, LockMode.shared)] ∧
    isHolder 3 LockMode.shared (acquireShared 3 fifoLock) = false :=
  ⟨(rwlock_fifo fifoLock 2 3 (by decide) (by decide) (by decide)).1,
   ((rwlock_fifo fifoLock 2 3 (by decide) (by decide) (by decide)).2).1⟩

end Vdsm
